import Mathlib

/-!
Verification of the adaptive protocol negotiation and evaluation engine of the
rippletideco/starter CLI.  Each TypeScript function from `src/cli/src/api/` that the
claims mention is translated into an executable Lean definition; JavaScript strings are
modelled as `String`/`List Char`, decoded JSON bodies as the inductive `Json`, and
remote calls as explicit outcome oracles supplied to the orchestration functions.
-/

namespace Starter

/-! ### JavaScript string primitives

`isPre p l` is `true` when `p` is a prefix of `l` (the behaviour of anchored regex
matches such as `^https?:\/\/` and of `String.prototype.startsWith`), and `isSub` is
substring containment (`String.prototype.includes`). -/
def isPre : List Char → List Char → Bool
  | [], _ => true
  | _ :: _, [] => false
  | a :: as, b :: bs => if a = b then isPre as bs else false

def isSub (p : List Char) : List Char → Bool
  | [] => isPre p []
  | c :: rest => isPre p (c :: rest) || isSub p rest

def wsC (c : Char) : Bool := c.isWhitespace

/-- Model of `String.prototype.trim`: remove leading and trailing whitespace. -/
def trimLeftC (l : List Char) : List Char := l.dropWhile wsC

def trimRightC (l : List Char) : List Char := (l.reverse.dropWhile wsC).reverse

def trimChars (l : List Char) : List Char := trimRightC (trimLeftC l)

/-! ### normalizeEndpoint (src/cli/src/api/endpoint.ts, lines 11-33)

The trailing `try { new URL(normalized) ... } catch { ... }` block of the source
returns `normalized` on every path (both `if` branches and the `catch`), so the URL
parse never affects the produced string and is not modelled. -/
def schemeHttpL : List Char := "http://".data

def schemeHttpsL : List Char := "https://".data

/-- The anchored regex `^https?:\/\//`. -/
def hasScheme (l : List Char) : Bool := isPre schemeHttpL l || isPre schemeHttpsL l

def firstDigit : List Char → Bool
  | [] => false
  | c :: _ => c.isDigit

/-- The unanchored regex `:\d+`: some `:` immediately followed by a digit. -/
def hasPortTok : List Char → Bool
  | [] => false
  | c :: rest => (if c = ':' then firstDigit rest else false) || hasPortTok rest

def localhostL : List Char := "localhost".data

/-- The check `normalized.includes('localhost')`. -/
def containsLoc (l : List Char) : Bool := isSub localhostL l

/-- Consume one or more leading digits, returning the remainder (the `\d+` atom). -/
def num1 (l : List Char) : Option (List Char) :=
  if l.takeWhile Char.isDigit = [] then none else some (l.dropWhile Char.isDigit)

def expectDot : List Char → Option (List Char)
  | c :: rest => if c = '.' then some rest else none
  | [] => none

/-- The anchored regex `^\d+\.\d+\.\d+\.\d+` (a dotted IPv4-looking lead). -/
def ipv4Lead (l : List Char) : Bool :=
  ((((((num1 l).bind expectDot).bind num1).bind expectDot).bind num1).bind expectDot
    |>.bind num1).isSome

def normalizeCore (l : List Char) : List Char :=
  let normalized := trimChars l
  if hasScheme normalized then normalized
  else if hasPortTok normalized || containsLoc normalized || ipv4Lead normalized then
    schemeHttpL ++ normalized
  else
    schemeHttpsL ++ normalized

def normalizeEndpoint (endpoint : String) : String :=
  String.mk (normalizeCore endpoint.data)

/-! ### Trim lemmas used for idempotence -/
/-- Whether a character list does not start with whitespace. -/
def noLeadWS : List Char → Prop
  | [] => True
  | c :: _ => wsC c = false

/-! ### Spec-side formulation of the no-scheme triggers (claim C7)

The claim describes the `http://` trigger as: the string contains an explicit port,
the literal token `localhost`, or a dotted IPv4 lead.  The port condition is phrased
here over adjacent character pairs, independently of the recursive scanner above. -/
def specHasPortPair (l : List Char) : Bool :=
  (l.zip l.tail).any fun pr => if pr.1 = ':' then pr.2.isDigit else false

/-! ### Decoded JSON values

A decoded HTTP response body.  JavaScript property access on a decoded value can only
throw when the value itself is `null` (reading any property of `null` is a
`TypeError`); property access on booleans, numbers, strings and arrays yields
`undefined` for the field names used here, modelled as `none`. -/
inductive Json where
  | jnull : Json
  | jbool (b : Bool) : Json
  | jnum (n : Int) : Json
  | jstr (s : String) : Json
  | jarr (elems : List Json) : Json
  | jobj (fields : List (String × Json)) : Json

/-- Property access `v[k]` for a non-null decoded value: `none` models `undefined`. -/
def getProp (v : Json) (k : String) : Option Json :=
  match v with
  | .jobj fs => (fs.find? (fun f => f.1 == k)).map Prod.snd
  | _ => none

/-- JavaScript truthiness of a possibly-undefined value. -/
def jsTruthy : Option Json → Bool
  | none => false
  | some .jnull => false
  | some (.jbool b) => b
  | some (.jnum n) => decide (n ≠ 0)
  | some (.jstr s) => decide (s ≠ "")
  | some (.jarr _) => true
  | some (.jobj _) => true

/-! ### JSON.stringify

Model of `JSON.stringify` on decoded values (quote and backslash escaped; other
control-character escapes are irrelevant to the payloads considered here). -/
def escChar (c : Char) : List Char :=
  if c = '"' ∨ c = '\\' then ['\\', c] else [c]

def escapeStr (s : String) : String := String.mk (s.data.map escChar).flatten

mutual

def stringify : Json → String
  | .jnull => "null"
  | .jbool true => "true"
  | .jbool false => "false"
  | .jnum n => n.repr
  | .jstr s => "\"" ++ escapeStr s ++ "\""
  | .jarr xs => "[" ++ stringifyItems xs ++ "]"
  | .jobj fs => "\x7b" ++ stringifyFields fs ++ "\x7d"

def stringifyItems : List Json → String
  | [] => ""
  | [x] => stringify x
  | x :: y :: rest => stringify x ++ "," ++ stringifyItems (y :: rest)

def stringifyFields : List (String × Json) → String
  | [] => ""
  | [(k, v)] => "\"" ++ escapeStr k ++ "\":" ++ stringify v
  | (k, v) :: g :: rest =>
      "\"" ++ escapeStr k ++ "\":" ++ stringify v ++ "," ++ stringifyFields (g :: rest)

end

/-! ### extractResponseText (src/cli/src/api/response.ts, lines 32-75)

The JS function is a sequence of `if` blocks; each block below is one of them, in
source order.  The result is `Except Unit Json`: `.error ()` models a thrown
`TypeError` (a property read on `null`), and `.ok v` models `return v` — the source
can return non-string values from the `choices`/`messages` blocks, because those
blocks test only truthiness, not `typeof`. -/
def responseFields : List String :=
  ["answer", "response", "message", "text", "result",
   "output", "content", "reply", "completion", "data",
   "bot_message", "assistant_message", "ai_response"]

/-- The `for (const field of responseFields)` loop: first field whose value is a
truthy string (`data[field] && typeof data[field] === 'string'`). -/
def findStringField (v : Json) : List String → Option String
  | [] => none
  | f :: rest =>
      match getProp v f with
      | some (.jstr s) => if s = "" then findStringField v rest else some s
      | _ => findStringField v rest

/-- The access `choice.message?.content` (optional chaining: `undefined` when `message` is
null or undefined). -/
def msgContent (c : Json) : Option Json :=
  match getProp c "message" with
  | some .jnull => none
  | some m => getProp m "content"
  | none => none

/-- The final single-key unwrap plus stringify fallback: `Object.keys(data)` covers
plain objects and arrays (whose keys are the indices). -/
def extractSingleKey (data : Json) : Except Unit Json :=
  match data with
  | .jobj [(_, .jstr s)] => .ok (.jstr s)
  | .jarr [.jstr s] => .ok (.jstr s)
  | _ => .ok (.jstr (stringify data))

/-- Model of `if (x) return x; <fallback>`: return the value when truthy, else fall through
to the rest of the source function. -/
def truthyOr (x : Option Json) (fallback : Except Unit Json) : Except Unit Json :=
  match x with
  | some cv => if jsTruthy (some cv) then .ok cv else fallback
  | none => fallback

/-- The last element of `data.messages`: reading `.content` on a null element
throws; otherwise return `lastMessage.content` when truthy. -/
def lastElemExtract (data : Json) : Option Json → Except Unit Json
  | some .jnull => .error ()
  | some last => truthyOr (getProp last "content") (extractSingleKey data)
  | none => extractSingleKey data

/-- The `data.messages` block of the source. -/
def extractMessages (data : Json) : Except Unit Json :=
  match getProp data "messages" with
  | some (.jarr ms) => lastElemExtract data ms.getLast?
  | _ => extractSingleKey data

/-- The step `if (choice.text) return choice.text` inside the `data.choices` block. -/
def extractChoiceText (data c : Json) : Except Unit Json :=
  truthyOr (getProp c "text") (extractMessages data)

/-- One `choices[0]` element: reading `.message` on a null element throws; otherwise
`choice.message?.content` when truthy, then `choice.text` when truthy. -/
def choiceExtract (data : Json) : Json → Except Unit Json
  | .jnull => .error ()
  | c => truthyOr (msgContent c) (extractChoiceText data c)

/-- The `data.choices` block of the source (entered when `choices` is a non-empty
array; arrays are always truthy). -/
def extractChoices (data : Json) : Except Unit Json :=
  match getProp data "choices" with
  | some (.jarr (c :: _)) => choiceExtract data c
  | _ => extractMessages data

def extractResponseText (data : Json) : Except Unit Json :=
  match data with
  | .jstr s => .ok (.jstr s)
  | .jnull => .error ()
  | _ =>
      match findStringField data responseFields with
      | some s => .ok (.jstr s)
      | none => extractChoices data

/-! ### Conditions under which convention-based extraction returns a string

`contentStrOk x` says a candidate property value cannot derail extraction: either it
is a string, or it is falsy (and therefore skipped by the source's truthiness
tests).  `choicesSafe`/`messagesSafe` say the `choices`/`messages` blocks neither
dereference `null` nor return a truthy non-string. -/
def contentStrOk : Option Json → Bool
  | some (.jstr _) => true
  | x => !jsTruthy x

def choiceSafe : Json → Bool
  | .jnull => false
  | c => contentStrOk (msgContent c) && contentStrOk (getProp c "text")

def choicesSafe (v : Json) : Bool :=
  match getProp v "choices" with
  | some (.jarr (c :: _)) => choiceSafe c
  | _ => true

def lastElemSafe : Option Json → Bool
  | some .jnull => false
  | some last => contentStrOk (getProp last "content")
  | none => true

def messagesSafe (v : Json) : Bool :=
  match getProp v "messages" with
  | some (.jarr ms) => lastElemSafe ms.getLast?
  | _ => true

/-! ### generatePayloadVariants (src/cli/src/api/endpoint.ts, lines 35-66)

The exact sequence of `variants.push(...)` calls, in source order. -/
def generatePayloadVariants (question : String) : List Json :=
  [ Json.jobj [("messages", Json.jarr
      [Json.jobj [("role", Json.jstr "user"), ("content", Json.jstr question)]])],
    Json.jobj [("message", Json.jstr question)],
    Json.jobj [("inputs", Json.jstr question)],
    Json.jobj [("message", Json.jstr question), ("query", Json.jstr question),
      ("question", Json.jstr question), ("prompt", Json.jstr question)],
    Json.jobj [("query", Json.jstr question)],
    Json.jobj [("question", Json.jstr question)],
    Json.jobj [("prompt", Json.jstr question)],
    Json.jobj [("input", Json.jstr question)],
    Json.jobj [("text", Json.jstr question)],
    Json.jobj [("user_message", Json.jstr question)],
    Json.jobj [("data", Json.jstr question)],
    Json.jobj [("content", Json.jstr question)],
    Json.jstr question ]

/-! Spec-side description of the catalogue, structured as the claim words it:
the chat-message shape, then `message`, `inputs`, the four-synonym body, then one
single-key body per listed key, and finally the bare question string. -/
def chatShape (q : String) : Json :=
  Json.jobj [("messages", Json.jarr
    [Json.jobj [("role", Json.jstr "user"), ("content", Json.jstr q)]])]

def singleKeyShape (k q : String) : Json := Json.jobj [(k, Json.jstr q)]

def fourSynonymShape (q : String) : Json :=
  Json.jobj (["message", "query", "question", "prompt"].map fun k => (k, Json.jstr q))

def specVariantCatalogue (q : String) : List Json :=
  [chatShape q, singleKeyShape "message" q, singleKeyShape "inputs" q, fourSynonymShape q]
  ++ (["query", "question", "prompt", "input", "text",
       "user_message", "data", "content"].map fun k => singleKeyShape k q)
  ++ [Json.jstr q]

/-! ### testAgentConnection — the Protocol Prober (src/cli/src/api/llm.ts, lines 135-198)

Each loop iteration posts one payload variant; the per-iteration outcome is supplied
by an oracle `env : Nat → ProbeAttempt`.  A thrown request error carries a `code`;
the source returns immediately on `ECONNREFUSED` / `ENOTFOUND` and swallows every
other throw (including an extraction `TypeError` or a `.substring` call on a
non-string extracted value, both raised inside the `try`), continuing with the next
variant.  `sent` records the payloads actually posted, in order. -/
inductive ProbeAttempt where
  | http (status : Nat) (body : Json) : ProbeAttempt
  | netErr (code : String) : ProbeAttempt

def attemptFatal : ProbeAttempt → Bool
  | .netErr c => c = "ECONNREFUSED" || c = "ENOTFOUND"
  | _ => false

/-- A match: non-error status and a truthy, `\x7b\x7d`-unequal extracted string.  A
truthy non-string extraction would throw on `.substring` inside the `try` and is
therefore a non-match as well. -/
def attemptMatches : ProbeAttempt → Bool
  | .http st body =>
      if st < 400 then
        match extractResponseText body with
        | .ok (.jstr s) => !(s = "" || s = "\x7b\x7d")
        | _ => false
      else false
  | _ => false

def fatalMessage : ProbeAttempt → String
  | .netErr c =>
      if c = "ECONNREFUSED" then "Connection refused. Make sure your agent is running."
      else "Endpoint not found. Please check the URL."
  | _ => ""

structure ProbeOutcome where
  success : Bool
  message : String
  sent : List Json

def noCompatMessage : String :=
  "Could not establish a valid connection. The endpoint might not be compatible."

def probeLoop (env : Nat → ProbeAttempt) : Nat → List Json → ProbeOutcome
  | _, [] => ⟨false, noCompatMessage, []⟩
  | i, v :: rest =>
      if attemptFatal (env i) then ⟨false, fatalMessage (env i), [v]⟩
      else if attemptMatches (env i) then
        ⟨true, "Connection successful! Agent is responding.", [v]⟩
      else
        let r := probeLoop env (i + 1) rest
        ⟨r.success, r.message, v :: r.sent⟩

def probeQuestion : String := "Hello, are you there?"

def testAgentConnection (env : Nat → ProbeAttempt) : ProbeOutcome :=
  probeLoop env 0 (generatePayloadVariants probeQuestion)

def probeEnvW : Nat → ProbeAttempt := fun n =>
  if n = 0 then ProbeAttempt.http 500 Json.jnull else ProbeAttempt.netErr "ECONNREFUSED"

/-! ### Custom configuration layer (src/cli/src/api/endpoint.ts, lines 4-9 and 68-101)

`CustomEndpointConfig` has four optional fields.  JavaScript truthiness: an absent
field is falsy, a present `headers` object is truthy even when empty, and a present
but empty template/field string is falsy. -/
structure CustomEndpointConfig where
  headers : Option (List (String × String)) := none
  bodyTemplate : Option String := none
  responseField : Option String := none
  method : Option String := none

def optStrTruthy : Option String → Bool
  | some s => !(s = "")
  | none => false

/-- Global string replacement as `String.prototype.replace(/pat/g, r)`: leftmost,
non-overlapping, the replacement is not rescanned. -/
def replaceAll (p r : List Char) : List Char → List Char
  | [] => []
  | c :: rest =>
      if h : p ≠ [] ∧ isPre p (c :: rest) = true then
        r ++ replaceAll p r (List.drop p.length (c :: rest))
      else
        c :: replaceAll p r rest
  termination_by l => l.length
  decreasing_by
  · have hp : 1 ≤ p.length := by
      cases p with
      | nil => exact absurd rfl h.1
      | cons _ _ => simp
    simp only [List.length_drop, List.length_cons]
    omega
  · simp

def placeholderA : String := "[eval-question]"

def placeholderB : String := "\x7b\x7bquestion\x7d\x7d"

def placeholderC : String := "\x7bquestion\x7d"

/-- The three placeholder substitutions of `buildCustomPayload`, in source order. -/
def substituteQuestion (template question : String) : String :=
  String.mk (replaceAll placeholderC.data question.data
    (replaceAll placeholderB.data question.data
      (replaceAll placeholderA.data question.data template.data)))

/-- A request body: parsed JSON, or the raw substituted string when `JSON.parse`
fails (the `catch` branch re-runs the same substitutions, producing the same
string).  `parse` models the host primitive `JSON.parse`, threaded as a parameter. -/
inductive Payload where
  | json (j : Json) : Payload
  | raw (s : String) : Payload

def buildCustomPayload (parse : String → Option Json) (template question : String) : Payload :=
  let replaced := substituteQuestion template question
  match parse replaced with
  | some j => .json j
  | none => .raw replaced

/-! ### extractCustomResponseField (src/cli/src/api/response.ts, lines 3-30) -/
/-- The split `fieldPath.split(/[.\[\]]/).filter(p => p)`. -/
def splitPathAux : List Char → List Char → List (List Char)
  | [], acc => if acc = [] then [] else [acc.reverse]
  | c :: rest, acc =>
      if c = '.' ∨ c = '[' ∨ c = ']' then
        if acc = [] then splitPathAux rest [] else acc.reverse :: splitPathAux rest []
      else splitPathAux rest (c :: acc)

def splitPath (p : String) : List String := (splitPathAux p.data []).map String.mk

def digitsToNat (l : List Char) : Nat :=
  l.foldl (fun acc c => acc * 10 + (c.toNat - 48)) 0

/-- Property access `current[part]`: `parseInt(part)` indexing for purely numeric segments (on an
object, `obj[5]` coincides with `obj['5']`), plain key lookup otherwise. -/
def jsGetPart (v : Json) (part : String) : Option Json :=
  if part.data ≠ [] ∧ part.data.all Char.isDigit then
    match v with
    | .jarr xs => xs[digitsToNat part.data]?
    | .jobj fs => (fs.find? (fun f => f.1 == part)).map Prod.snd
    | _ => none
  else getProp v part

/-- The walk loop: stops (keeping the current value) as soon as the current value is
null or undefined. -/
def walkPath : Option Json → List String → Option Json
  | cur, [] => cur
  | none, _ :: _ => none
  | some .jnull, _ :: _ => some .jnull
  | some v, part :: rest => walkPath (jsGetPart v part) rest

def extractCustomResponseField (data : Json) (fieldPath : String) : Except Unit Json :=
  match walkPath (some data) (splitPath fieldPath) with
  | some (.jstr s) => .ok (.jstr s)
  | some .jnull => extractResponseText data
  | none => extractResponseText data
  | some v => .ok (.jstr (stringify v))

/-! ### callLLMEndpoint (src/cli/src/api/llm.ts, lines 13-123)

Request outcomes come from an oracle `env : Nat → LLMOutcome` (one entry per issued
request).  The trace records every HTTP request issued, so that "exactly one request"
is a statement about `requests`.  The outer `catch` maps `ECONNREFUSED` /
`ETIMEDOUT` / `ENOTFOUND` to connection errors and rethrows anything else; errors are
modelled as strings. -/
inductive LLMOutcome where
  | http (status : Nat) (body : Json) : LLMOutcome
  | netErr (code msg : String) : LLMOutcome

structure Request where
  method : String
  headers : List (String × String)
  body : Option Payload

structure CallTrace where
  requests : List Request
  result : Except String String

def mapNetError (code msg : String) : String :=
  if code = "ECONNREFUSED" then "CONNECTION_REFUSED"
  else if code = "ETIMEDOUT" then "CONNECTION_TIMEOUT"
  else if code = "ENOTFOUND" then "CONNECTION_NOT_FOUND"
  else msg

def contentTypeJson : String × String := ("Content-Type", "application/json")

/-- Model of `createAxiosClient`: `Content-Type: application/json` with the custom headers
spread over it (kept as an ordered list; later entries override). -/
def customHeaders (cfg : CustomEndpointConfig) : List (String × String) :=
  contentTypeJson :: cfg.headers.getD []

/-- The method default `customConfig.method?.toLowerCase() || 'post'`. -/
def effectiveMethod (cfg : CustomEndpointConfig) : String :=
  match cfg.method with
  | some m => if m.toLower = "" then "post" else m.toLower
  | none => "post"

/-- The single request of the custom-configuration path: a GET carries no body; any
other method issues a POST with the template-built payload (or `{message: question}`
when only headers are configured). -/
def customRequest (parse : String → Option Json) (cfg : CustomEndpointConfig)
    (question : String) : Request :=
  let payload : Payload :=
    match cfg.bodyTemplate with
    | some t =>
        if t = "" then Payload.json (Json.jobj [("message", Json.jstr question)])
        else buildCustomPayload parse t question
    | none => Payload.json (Json.jobj [("message", Json.jstr question)])
  if effectiveMethod cfg = "get" then ⟨"get", customHeaders cfg, none⟩
  else ⟨"post", customHeaders cfg, some payload⟩

/-- Extraction of the final response body, including the implicit requirement that
the extracted value is a string (the source immediately calls `.substring` on it,
which throws a `TypeError` otherwise) and that extraction itself did not throw. -/
def extractForCall (customConfig : Option CustomEndpointConfig) (body : Json) :
    Except String String :=
  let raw : Except Unit Json :=
    match customConfig with
    | some cfg =>
        match cfg.responseField with
        | some f => if f = "" then extractResponseText body
                    else extractCustomResponseField body f
        | none => extractResponseText body
    | none => extractResponseText body
  match raw with
  | .ok (.jstr s) => .ok s
  | _ => .error "TypeError"

def customResult (cfg : CustomEndpointConfig) : LLMOutcome → Except String String
  | .netErr code msg => .error (mapNetError code msg)
  | .http st body =>
      if 400 ≤ st then .error "API_ERROR"
      else extractForCall (some cfg) body

/-- The payload-variant loop: returns the issued requests, the last HTTP response
seen (`response` is only assigned by completed requests and a status below 400
breaks), and the last error (`lastError`). -/
def negotiateLoop (env : Nat → LLMOutcome) :
    Nat → List Json → List Request × Option (Nat × Json) × Option String
  | _, [] => ([], none, none)
  | i, v :: rest =>
      let req : Request := ⟨"post", [], some (Payload.json v)⟩
      match env i with
      | .http st body =>
          if st < 400 then ([req], some (st, body), none)
          else
            let r := negotiateLoop env (i + 1) rest
            (req :: r.1, some (r.2.1.getD (st, body)),
              (r.2.2 <|> some ("HTTP " ++ Nat.repr st)))
      | .netErr code msg =>
          let r := negotiateLoop env (i + 1) rest
          (req :: r.1, r.2.1, (r.2.2 <|> some (mapNetError code msg)))

def negotiate (env : Nat → LLMOutcome) (question : String)
    (customConfig : Option CustomEndpointConfig) : CallTrace :=
  let r := negotiateLoop env 0 (generatePayloadVariants question)
  match r.2.1 with
  | some (st, body) =>
      if st < 400 then ⟨r.1, extractForCall customConfig body⟩
      else ⟨r.1, .error (r.2.2.getD ("LLM endpoint returned error: HTTP " ++ Nat.repr st))⟩
  | none => ⟨r.1, .error (r.2.2.getD "LLM endpoint returned error")⟩

/-- Model of `callLLMEndpoint`: the custom path is taken only when the config carries headers
or a (non-empty) body template — `customConfig && (customConfig.headers ||
customConfig.bodyTemplate)` — and then issues exactly one request; otherwise the
variant negotiation loop runs (still honouring `customConfig?.responseField` for
extraction). -/
def callLLMEndpoint (parse : String → Option Json) (env : Nat → LLMOutcome)
    (question : String) (customConfig : Option CustomEndpointConfig) : CallTrace :=
  match customConfig with
  | some cfg =>
      if cfg.headers.isSome || optStrTruthy cfg.bodyTemplate then
        ⟨[customRequest parse cfg question], customResult cfg (env 0)⟩
      else negotiate env question customConfig
  | none => negotiate env question customConfig

def parseNone : String → Option Json := fun _ => none

def cfgHdr : CustomEndpointConfig := { headers := some [("x-api-key", "k")] }

def cfgRespOnly : CustomEndpointConfig := { responseField := some "answer" }

def envTwo : Nat → LLMOutcome := fun n =>
  if n = 0 then LLMOutcome.http 500 Json.jnull
  else LLMOutcome.http 200 (Json.jobj [("answer", Json.jstr "hi")])

/-! ### Evaluation orchestration (src/cli/src/api/evaluation.ts and client.ts)

Remote interactions of one prompt evaluation are abstracted as a `PromptEnv` of
outcome oracles:

* `call` — the result of `callLLMEndpoint` (a response string, or a throw);
* `judge` — the `check-hallucination-response` call (a verdict, HTTP 404, or any
  other error);
* `storeFull` / `storeMinimal` — the two-tier `test-results` store attempts of the
  success path;
* `storePassed`, `storeFailed`, `storeFailedMinimal` — the store attempts of the
  two `catch` branches; the source swallows their errors (`logger` only), so they
  never influence the returned result and are carried only for completeness.

Progress callbacks (`onProgress`, `onLLMResponse`) are notification-only and
modelled as pure.  Absent judge-response fields are modelled as `""` / `[]`, which
is what the source's `||` defaulting treats them as. -/
inductive CallOutcome where
  | ok (resp : String) : CallOutcome
  | err (msg : String) : CallOutcome
deriving DecidableEq

structure JudgeData where
  question : String
  llmResponse : String
  summary : String
  status : String
  hallucinationLabel : String
  facts : List String
  findings : List String
deriving DecidableEq

inductive JudgeOutcome where
  | verdict (d : JudgeData) : JudgeOutcome
  | notFound : JudgeOutcome
  | err : JudgeOutcome
deriving DecidableEq

inductive StoreOutcome where
  | ok : StoreOutcome
  | err (msg : String) : StoreOutcome
deriving DecidableEq

structure PromptEnv where
  call : CallOutcome
  judge : JudgeOutcome
  storeFull : StoreOutcome := .ok
  storeMinimal : StoreOutcome := .ok
  storePassed : StoreOutcome := .ok
  storeFailed : StoreOutcome := .ok
  storeFailedMinimal : StoreOutcome := .ok
deriving DecidableEq

structure HallucinationCheckResult where
  question : String
  llmResponse : String
  summary : String
  facts : List String
  status : String
  hallucinationLabel : String
  hallucinationFindings : List String
deriving DecidableEq

structure PromptEvaluationResult where
  success : Bool
  question : String
  llmResponse : Option String
  hallucinationResult : Option HallucinationCheckResult
  error : Option String
deriving DecidableEq

def errMarker : String := "Error calling LLM endpoint:"

def strHasPre (p s : String) : Bool := isPre p.data s.data

/-- checkHallucination (src/cli/src/api/evaluation.ts, lines 132-199).  The second
component records whether the remote judge endpoint was actually called. -/
def checkHallucination (judge : JudgeOutcome) (question llmResponse : String) :
    HallucinationCheckResult × Bool :=
  if llmResponse = "" ∨ strHasPre errMarker llmResponse = true then
    ({ question := question, llmResponse := llmResponse, summary := "LLM endpoint error",
       facts := [], status := "failed", hallucinationLabel := "",
       hallucinationFindings := [] }, false)
  else
    match judge with
    | .verdict d =>
        ({ question := d.question, llmResponse := d.llmResponse,
           summary := d.summary, facts := d.facts,
           status := if d.status = "" then "passed" else d.status,
           hallucinationLabel :=
             if d.hallucinationLabel = "" then "FactIsPresent" else d.hallucinationLabel,
           hallucinationFindings := d.findings }, true)
    | .notFound =>
        ({ question := question, llmResponse := llmResponse,
           summary := "Hallucination check not available", facts := [],
           status := "passed", hallucinationLabel := "FactIsPresent",
           hallucinationFindings := [] }, true)
    | .err =>
        ({ question := question, llmResponse := llmResponse,
           summary := "Check failed", facts := [],
           status := "passed", hallucinationLabel := "FactIsPresent",
           hallucinationFindings := [] }, true)

/-- The synthesized failure result of the outer `catch` (agent call threw, or the
store threw with a falsy response string). -/
def failedResult (promptText msg : String) : PromptEvaluationResult :=
  { success := false, question := promptText,
    llmResponse := some (errMarker ++ " " ++ msg),
    hallucinationResult := none, error := some msg }

/-- runPromptEvaluation (src/cli/src/api/evaluation.ts, lines 201-348).  The
function never rejects: every path returns a `PromptEvaluationResult`.  When both
store attempts throw, the exception escapes to the outer `catch`, which takes the
leniency branch only when `llmResponse` is truthy, i.e. a non-empty string. -/
def runPromptEvaluation (env : PromptEnv) (promptText : String) : PromptEvaluationResult :=
  match env.call with
  | .err msg => failedResult promptText msg
  | .ok llmResponse =>
      let hres := (checkHallucination env.judge promptText llmResponse).1
      let status := if hres.status = "passed" then "passed" else "failed"
      match env.storeFull with
      | .ok =>
          { success := decide (status = "passed"), question := promptText,
            llmResponse := some llmResponse, hallucinationResult := some hres,
            error := none }
      | .err _ =>
          match env.storeMinimal with
          | .ok =>
              { success := decide (status = "passed"), question := promptText,
                llmResponse := some llmResponse, hallucinationResult := some hres,
                error := none }
          | .err m2 =>
              if llmResponse = "" then failedResult promptText m2
              else
                { success := true, question := promptText,
                  llmResponse := some llmResponse,
                  hallucinationResult := some
                    { question := promptText, llmResponse := llmResponse,
                      summary := "Evaluation skipped (LLM responded successfully)",
                      facts := [], status := "passed",
                      hallucinationLabel := "NO_HALLUCINATION",
                      hallucinationFindings := [] },
                  error := none }

structure Prompt where
  id : Nat
  prompt : String
  expectedAnswer : Option String
deriving DecidableEq

/-- runAllPromptEvaluations (src/cli/src/api/evaluation.ts, lines 350-388): a
strictly sequential loop pushing one result per prompt; `runPromptEvaluation` never
rejects, so the surrounding `try` never truncates the loop. -/
def runAllPromptEvaluations (items : List (Prompt × PromptEnv)) :
    List PromptEvaluationResult :=
  items.map fun pe => runPromptEvaluation pe.2 pe.1.prompt

structure RunSummary where
  totalTests : Nat
  passed : Nat
  failed : Nat
deriving DecidableEq

/-- runEvaluation (src/cli/src/api/client.ts, lines 842-925): fold the results into
pass/fail counts; `totalTests: promptCount || 5` falls back to 5 when the backend
created zero prompts. -/
def runEvaluation (items : List (Prompt × PromptEnv)) : RunSummary :=
  { totalTests := if items.length = 0 then 5 else items.length,
    passed := (runAllPromptEvaluations items).countP (fun r => r.success),
    failed := (runAllPromptEvaluations items).countP (fun r => !r.success) }

def envJudge404 : PromptEnv := { call := .ok "hello", judge := .notFound }

def envLenient : PromptEnv :=
  { call := .ok "pong", judge := .verdict
      { question := "q", llmResponse := "pong", summary := "", status := "failed",
        hallucinationLabel := "", facts := [], findings := [] },
    storeFull := .err "boom", storeMinimal := .err "boom" }

def envEmptyResp : PromptEnv :=
  { call := .ok "", judge := .err, storeFull := .err "boom", storeMinimal := .err "boom" }

def envNetErr : PromptEnv := { call := .err "ECONNREFUSED", judge := .err }

def promptW : Prompt := { id := 1, prompt := "What can you help me with?", expectedAnswer := none }

/-! ### Theorems -/

theorem dropWhile_head_false (p : Char → Bool) :
    ∀ (l : List Char) (c : Char) (t : List Char), l.dropWhile p = c :: t → p c = false := by
  intro l
  induction l with
  | nil => intro c t h; simp [List.dropWhile] at h
  | cons a l ih =>
      intro c t h
      by_cases ha : p a
      · rw [List.dropWhile_cons_of_pos ha] at h
        exact ih c t h
      · rw [List.dropWhile_cons_of_neg ha] at h
        cases h
        simpa using ha

theorem noLeadWS_trimLeftC (l : List Char) : noLeadWS (trimLeftC l) := by
  unfold trimLeftC
  cases h : l.dropWhile wsC with
  | nil => trivial
  | cons c t => exact dropWhile_head_false wsC l c t h

theorem trimLeftC_eq_of_noLead {l : List Char} (h : noLeadWS l) : trimLeftC l = l := by
  unfold trimLeftC
  cases l with
  | nil => rfl
  | cons c t => exact List.dropWhile_cons_of_neg (by simp [noLeadWS] at h; simp [h])

/-- What `trimRightC` guarantees, phrased on the reversed list. -/
theorem noLeadWS_reverse_trimRightC (l : List Char) : noLeadWS (trimRightC l).reverse := by
  unfold trimRightC
  rw [List.reverse_reverse]
  exact noLeadWS_trimLeftC l.reverse

theorem trimRightC_eq_of_noLead {l : List Char} (h : noLeadWS l.reverse) : trimRightC l = l := by
  unfold trimRightC
  have : l.reverse.dropWhile wsC = l.reverse := trimLeftC_eq_of_noLead h
  rw [this, List.reverse_reverse]

theorem noLeadWS_of_isPrefix {l₁ l₂ : List Char} (h : l₁ <+: l₂) (h₂ : noLeadWS l₂) :
    noLeadWS l₁ := by
  cases l₁ with
  | nil => trivial
  | cons c t =>
      obtain ⟨r, hr⟩ := h
      subst hr
      exact h₂

theorem trimRightC_isPrefix (l : List Char) : trimRightC l <+: l := by
  unfold trimRightC
  have h := List.dropWhile_suffix (l := l.reverse) (p := wsC)
  refine List.reverse_suffix.mp ?_
  simpa using h

theorem noLeadWS_trimChars (l : List Char) : noLeadWS (trimChars l) := by
  unfold trimChars
  exact noLeadWS_of_isPrefix (trimRightC_isPrefix (trimLeftC l)) (noLeadWS_trimLeftC l)

theorem noTrail_trimChars (l : List Char) : noLeadWS (trimChars l).reverse := by
  unfold trimChars
  exact noLeadWS_reverse_trimRightC (trimLeftC l)

theorem trimChars_eq_of_noWS {l : List Char} (h₁ : noLeadWS l) (h₂ : noLeadWS l.reverse) :
    trimChars l = l := by
  unfold trimChars
  rw [trimLeftC_eq_of_noLead h₁, trimRightC_eq_of_noLead h₂]

theorem trimChars_idem (l : List Char) : trimChars (trimChars l) = trimChars l :=
  trimChars_eq_of_noWS (noLeadWS_trimChars l) (noTrail_trimChars l)

theorem noLeadWS_append_left {x y : List Char} (hx : noLeadWS x) (hne : x ≠ []) :
    noLeadWS (x ++ y) := by
  cases x with
  | nil => exact absurd rfl hne
  | cons c t => exact hx

/-- A scheme-prefixed trimmed string is still trimmed on both sides. -/
theorem scheme_append_trimmed (scheme t : List Char)
    (h1 : noLeadWS scheme) (h2 : scheme ≠ []) (h3 : noLeadWS scheme.reverse)
    (ht : noLeadWS t.reverse) : noLeadWS (scheme ++ t) ∧ noLeadWS (scheme ++ t).reverse := by
  constructor
  · exact noLeadWS_append_left h1 h2
  · rw [List.reverse_append]
    cases t with
    | nil => simpa using h3
    | cons c r =>
        apply noLeadWS_append_left ht
        simp

theorem isPre_append (p l : List Char) : isPre p (p ++ l) = true := by
  induction p with
  | nil => rfl
  | cons a as ih => simpa [isPre] using ih

theorem normalizeCore_idem (l : List Char) : normalizeCore (normalizeCore l) = normalizeCore l := by
  unfold normalizeCore
  set t := trimChars l with ht
  have htrim : trimChars t = t := by rw [ht]; exact trimChars_idem l
  by_cases hs : hasScheme t
  · simp only [hs, if_true]
    rw [htrim]
    simp [hs]
  · simp only [hs, if_false, Bool.false_eq_true]
    have hhttp : noLeadWS schemeHttpL ∧ schemeHttpL ≠ [] ∧ noLeadWS schemeHttpL.reverse := by
      refine ⟨?_, ?_, ?_⟩ <;> simp [schemeHttpL, noLeadWS, wsC]
    have hhttps : noLeadWS schemeHttpsL ∧ schemeHttpsL ≠ [] ∧ noLeadWS schemeHttpsL.reverse := by
      refine ⟨?_, ?_, ?_⟩ <;> simp [schemeHttpsL, noLeadWS, wsC]
    have httail : noLeadWS t.reverse := by rw [ht]; exact noTrail_trimChars l
    by_cases hcond : hasPortTok t || containsLoc t || ipv4Lead t
    · simp only [hcond, if_true]
      have hp := scheme_append_trimmed schemeHttpL t hhttp.1 hhttp.2.1 hhttp.2.2 httail
      rw [trimChars_eq_of_noWS hp.1 hp.2]
      have : hasScheme (schemeHttpL ++ t) = true := by
        unfold hasScheme
        rw [isPre_append]
        simp
      simp [this]
    · simp only [hcond, if_false, Bool.false_eq_true]
      have hp := scheme_append_trimmed schemeHttpsL t hhttps.1 hhttps.2.1 hhttps.2.2 httail
      rw [trimChars_eq_of_noWS hp.1 hp.2]
      have : hasScheme (schemeHttpsL ++ t) = true := by
        unfold hasScheme
        rw [isPre_append]
        simp
      simp [this]

theorem hasPortTok_eq_spec : ∀ l : List Char, hasPortTok l = specHasPortPair l := by
  intro l
  induction l with
  | nil => rfl
  | cons c rest ih =>
      cases rest with
      | nil => simp [hasPortTok, specHasPortPair, firstDigit]
      | cons d rest' =>
          have h2 : specHasPortPair (c :: d :: rest') =
              ((if c = ':' then d.isDigit else false) || specHasPortPair (d :: rest')) := by
            simp [specHasPortPair]
          have h1 : hasPortTok (c :: d :: rest') =
              ((if c = ':' then d.isDigit else false) || hasPortTok (d :: rest')) := by
            simp [hasPortTok, firstDigit]
          rw [h1, h2, ih]

theorem http_append_len_ne (t : List Char) : schemeHttpL ++ t ≠ schemeHttpsL ++ t := by
  intro h
  have := congrArg List.length h
  simp [schemeHttpL, schemeHttpsL] at this

/-- C7: `normalizeEndpoint` as amended: the input is first trimmed of surrounding
whitespace; a trimmed input that already carries an `http://` or `https://` scheme is
returned unchanged, and otherwise the trimmed input is prefixed with `http://` exactly
when it contains a colon followed by a digit (an explicit port), the literal token
`localhost`, or a dotted-IPv4 lead, and with `https://` in all other cases. -/
theorem C7_normalize_spec (s : String) :
    (hasScheme (trimChars s.data) = true → normalizeEndpoint s = String.mk (trimChars s.data))
    ∧ (hasScheme (trimChars s.data) = false →
        (((normalizeEndpoint s).data = schemeHttpL ++ trimChars s.data) ↔
          (specHasPortPair (trimChars s.data) || containsLoc (trimChars s.data)
            || ipv4Lead (trimChars s.data)) = true)
        ∧ (((normalizeEndpoint s).data = schemeHttpsL ++ trimChars s.data) ↔
          (specHasPortPair (trimChars s.data) || containsLoc (trimChars s.data)
            || ipv4Lead (trimChars s.data)) = false)) := by
  constructor
  · intro hs
    unfold normalizeEndpoint normalizeCore
    simp [hs]
  · intro hs
    unfold normalizeEndpoint normalizeCore
    rw [← hasPortTok_eq_spec]
    by_cases hcond : hasPortTok (trimChars s.data) || containsLoc (trimChars s.data)
        || ipv4Lead (trimChars s.data)
    · simp only [hs, hcond, if_true, Bool.false_eq_true, if_false]
      constructor
      · simp
      · constructor
        · intro h
          exact absurd h (http_append_len_ne (trimChars s.data))
        · intro h
          simp at h
    · simp only [hs, hcond, Bool.false_eq_true, if_false]
      constructor
      · constructor
        · intro h
          exact absurd h.symm (http_append_len_ne (trimChars s.data))
        · intro h
          exact h.elim
      · simp

/-- C7 witness: normalizing `localhost:8000` (no scheme, explicit port and the
`localhost` token) yields the `http://` prefix. -/
theorem C7_normalize_spec_witness :
    (normalizeEndpoint "localhost:8000").data =
      schemeHttpL ++ trimChars ("localhost:8000" : String).data :=
  (((C7_normalize_spec "localhost:8000").2 (by decide)).1).mpr (by decide)

/-- C7 counterexample: the claim says an input already carrying an `http/https` scheme
is left unchanged (a no-op), but the source first runs `endpoint.trim()`, so an input
with surrounding whitespace that carries a scheme is changed. -/
theorem C7_counterexample :
    normalizeEndpoint " http://a.com" ≠ " http://a.com"
    ∧ normalizeEndpoint " http://a.com" = "http://a.com" := by
  constructor
  · decide
  · decide

/-- C9: endpoint normalization is idempotent: running `normalizeEndpoint` on its own
output is a fixed point, for every input string. -/
theorem C9_normalize_idempotent (x : String) :
    normalizeEndpoint (normalizeEndpoint x) = normalizeEndpoint x := by
  unfold normalizeEndpoint
  exact congrArg String.mk (normalizeCore_idem x.data)

theorem contentStrOk_truthy {x : Option Json} (h : contentStrOk x = true)
    (ht : jsTruthy x = true) : ∃ s, x = some (Json.jstr s) := by
  match x with
  | some (.jstr s) => exact ⟨s, rfl⟩
  | none => simp [jsTruthy] at ht
  | some .jnull => simp [jsTruthy] at ht
  | some (.jbool b) =>
      have h2 : (!jsTruthy (some (Json.jbool b))) = true := h
      rw [ht] at h2
      cases h2
  | some (.jnum n) =>
      have h2 : (!jsTruthy (some (Json.jnum n))) = true := h
      rw [ht] at h2
      cases h2
  | some (.jarr xs) =>
      have h2 : (!jsTruthy (some (Json.jarr xs))) = true := h
      rw [ht] at h2
      cases h2
  | some (.jobj fs) =>
      have h2 : (!jsTruthy (some (Json.jobj fs))) = true := h
      rw [ht] at h2
      cases h2

theorem extractSingleKey_str (d : Json) : ∃ s, extractSingleKey d = Except.ok (Json.jstr s) := by
  unfold extractSingleKey
  split
  · exact ⟨_, rfl⟩
  · exact ⟨_, rfl⟩
  · exact ⟨_, rfl⟩

theorem truthyOr_str {x : Option Json} {fb : Except Unit Json}
    (h : contentStrOk x = true) (hfb : ∃ s, fb = Except.ok (Json.jstr s)) :
    ∃ s, truthyOr x fb = Except.ok (Json.jstr s) := by
  match x with
  | none => simpa [truthyOr] using hfb
  | some cv =>
      by_cases htr : jsTruthy (some cv) = true
      · obtain ⟨s, hs⟩ := contentStrOk_truthy h htr
        cases hs
        exact ⟨s, by simp [truthyOr, htr]⟩
      · simpa [truthyOr, htr] using hfb

theorem lastElemExtract_str (d : Json) (x : Option Json) (h : lastElemSafe x = true) :
    ∃ s, lastElemExtract d x = Except.ok (Json.jstr s) := by
  match x with
  | none => exact extractSingleKey_str d
  | some .jnull => simp [lastElemSafe] at h
  | some (.jbool b) =>
      have h2 : contentStrOk (getProp (Json.jbool b) "content") = true := h
      exact truthyOr_str h2 (extractSingleKey_str d)
  | some (.jnum n) =>
      have h2 : contentStrOk (getProp (Json.jnum n) "content") = true := h
      exact truthyOr_str h2 (extractSingleKey_str d)
  | some (.jstr s) =>
      have h2 : contentStrOk (getProp (Json.jstr s) "content") = true := h
      exact truthyOr_str h2 (extractSingleKey_str d)
  | some (.jarr xs) =>
      have h2 : contentStrOk (getProp (Json.jarr xs) "content") = true := h
      exact truthyOr_str h2 (extractSingleKey_str d)
  | some (.jobj fs) =>
      have h2 : contentStrOk (getProp (Json.jobj fs) "content") = true := h
      exact truthyOr_str h2 (extractSingleKey_str d)

theorem extractMessages_str (v : Json) (hms : messagesSafe v = true) :
    ∃ s, extractMessages v = Except.ok (Json.jstr s) := by
  unfold extractMessages
  unfold messagesSafe at hms
  rcases hgp : getProp v "messages" with _ | (_ | b | n | s | ms | fs)
  · exact extractSingleKey_str v
  · exact extractSingleKey_str v
  · exact extractSingleKey_str v
  · exact extractSingleKey_str v
  · exact extractSingleKey_str v
  · rw [hgp] at hms
    exact lastElemExtract_str v ms.getLast? hms
  · exact extractSingleKey_str v

theorem choiceExtract_str (v c : Json) (hc : choiceSafe c = true)
    (hms : messagesSafe v = true) :
    ∃ s, choiceExtract v c = Except.ok (Json.jstr s) := by
  have step : contentStrOk (msgContent c) = true → contentStrOk (getProp c "text") = true →
      ∃ s, truthyOr (msgContent c) (extractChoiceText v c) = Except.ok (Json.jstr s) := by
    intro h1 h2
    exact truthyOr_str h1 (truthyOr_str h2 (extractMessages_str v hms))
  match c with
  | .jnull => simp [choiceSafe] at hc
  | .jbool b =>
      have h2 : (contentStrOk (msgContent (Json.jbool b))
          && contentStrOk (getProp (Json.jbool b) "text")) = true := hc
      have h3 := (Bool.and_eq_true _ _).mp h2
      exact step h3.1 h3.2
  | .jnum n =>
      have h2 : (contentStrOk (msgContent (Json.jnum n))
          && contentStrOk (getProp (Json.jnum n) "text")) = true := hc
      have h3 := (Bool.and_eq_true _ _).mp h2
      exact step h3.1 h3.2
  | .jstr s =>
      have h2 : (contentStrOk (msgContent (Json.jstr s))
          && contentStrOk (getProp (Json.jstr s) "text")) = true := hc
      have h3 := (Bool.and_eq_true _ _).mp h2
      exact step h3.1 h3.2
  | .jarr xs =>
      have h2 : (contentStrOk (msgContent (Json.jarr xs))
          && contentStrOk (getProp (Json.jarr xs) "text")) = true := hc
      have h3 := (Bool.and_eq_true _ _).mp h2
      exact step h3.1 h3.2
  | .jobj fs =>
      have h2 : (contentStrOk (msgContent (Json.jobj fs))
          && contentStrOk (getProp (Json.jobj fs) "text")) = true := hc
      have h3 := (Bool.and_eq_true _ _).mp h2
      exact step h3.1 h3.2

theorem extractChoices_str (v : Json) (hch : choicesSafe v = true)
    (hms : messagesSafe v = true) :
    ∃ s, extractChoices v = Except.ok (Json.jstr s) := by
  unfold extractChoices
  unfold choicesSafe at hch
  rcases hgp : getProp v "choices" with _ | (_ | b | n | s | xs | fs)
  · exact extractMessages_str v hms
  · exact extractMessages_str v hms
  · exact extractMessages_str v hms
  · exact extractMessages_str v hms
  · exact extractMessages_str v hms
  · rcases xs with _ | ⟨c, rest⟩
    · exact extractMessages_str v hms
    · rw [hgp] at hch
      exact choiceExtract_str v c hch hms
  · exact extractMessages_str v hms

/-- C5 (amended): convention-based extraction returns a string without throwing for
every decoded value that is not `null` and whose `choices[0]` / last `messages`
element neither is `null` nor carries a truthy non-string `message.content`, `text`
or `content` (the source throws a `TypeError` on `null` and can return non-string
values from those blocks — see the counterexample); a bare string is returned
verbatim, an `answer` field and the OpenAI `choices` shape yield the contained
string, and a payload with no matching field yields the non-empty stringification of
the whole payload. -/
theorem C5_extract_amended :
    (∀ v : Json, v ≠ .jnull → choicesSafe v = true → messagesSafe v = true →
      ∃ s, extractResponseText v = Except.ok (Json.jstr s))
    ∧ extractResponseText (Json.jstr "X") = Except.ok (Json.jstr "X")
    ∧ extractResponseText (Json.jobj [("answer", Json.jstr "X")]) = Except.ok (Json.jstr "X")
    ∧ extractResponseText (Json.jobj [("choices", Json.jarr
        [Json.jobj [("message", Json.jobj [("content", Json.jstr "X")])]])])
      = Except.ok (Json.jstr "X")
    ∧ extractResponseText (Json.jobj [("foo", Json.jobj [("bar", Json.jnum 1)])])
      = Except.ok (Json.jstr
          (stringify (Json.jobj [("foo", Json.jobj [("bar", Json.jnum 1)])])))
    ∧ stringify (Json.jobj [("foo", Json.jobj [("bar", Json.jnum 1)])]) ≠ "" := by
  refine ⟨?_, rfl, rfl, rfl, rfl, ?_⟩
  · intro v hv hch hms
    unfold extractResponseText
    match v with
    | .jstr s => exact ⟨s, rfl⟩
    | .jnull => exact absurd rfl hv
    | .jbool b =>
        cases hf : findStringField (Json.jbool b) responseFields
        · exact extractChoices_str _ hch hms
        · exact ⟨_, rfl⟩
    | .jnum n =>
        cases hf : findStringField (Json.jnum n) responseFields
        · exact extractChoices_str _ hch hms
        · exact ⟨_, rfl⟩
    | .jarr xs =>
        cases hf : findStringField (Json.jarr xs) responseFields
        · exact extractChoices_str _ hch hms
        · exact ⟨_, rfl⟩
    | .jobj fs =>
        cases hf : findStringField (Json.jobj fs) responseFields
        · exact extractChoices_str _ hch hms
        · exact ⟨_, rfl⟩
  · decide

/-- C5 witness: the general part of the amended claim applied to the concrete payload
with an `answer` field. -/
theorem C5_extract_amended_witness :
    ∃ s, extractResponseText (Json.jobj [("answer", Json.jstr "X")])
      = Except.ok (Json.jstr s) :=
  C5_extract_amended.1 (Json.jobj [("answer", Json.jstr "X")])
    (by intro h; cases h) rfl rfl

/-- C5 counterexample: extraction is not total on decoded responses.  A decoded body
`null` (legal JSON, delivered by axios for the body `null`) makes the source read
`data['answer']` on `null`, which throws a `TypeError`; and a `choices[0].text` that
is a truthy non-string is returned as-is, so the function does not always return a
string. -/
theorem C5_counterexample :
    extractResponseText Json.jnull = Except.error ()
    ∧ extractResponseText (Json.jobj [("choices", Json.jarr
        [Json.jobj [("text", Json.jnum 5)]])]) = Except.ok (Json.jnum 5) :=
  ⟨rfl, rfl⟩

/-- C8: `generatePayloadVariants` is pure and deterministic and returns, for every
question, exactly the fixed ordered catalogue the spec describes: the chat-message
array first, then `message`, `inputs`, the four-synonym body, the eight single-key
bodies in the listed order, and finally the bare question string — 13 variants in
all, identical on every call with the same question. -/
theorem C8_variants_catalogue (q : String) :
    generatePayloadVariants q = specVariantCatalogue q
    ∧ (generatePayloadVariants q).length = 13 := ⟨rfl, rfl⟩

theorem probeLoop_sent_isPrefix (env : Nat → ProbeAttempt) :
    ∀ (vs : List Json) (i : Nat), (probeLoop env i vs).sent <+: vs := by
  intro vs
  induction vs with
  | nil => intro i; exact ⟨[], rfl⟩
  | cons v rest ih =>
      intro i
      unfold probeLoop
      by_cases hf : attemptFatal (env i)
      · simp only [hf, if_true]
        exact ⟨rest, rfl⟩
      · simp only [hf, Bool.false_eq_true, if_false]
        by_cases hm : attemptMatches (env i)
        · simp only [hm, if_true]
          exact ⟨rest, rfl⟩
        · simp only [hm, Bool.false_eq_true, if_false]
          exact (List.prefix_cons_inj v).mpr (ih (i + 1))

theorem probeLoop_fatal (env : Nat → ProbeAttempt) :
    ∀ (vs : List Json) (i k : Nat), k < vs.length → attemptFatal (env (i + k)) = true →
    (∀ j, j < k → attemptFatal (env (i + j)) = false ∧ attemptMatches (env (i + j)) = false) →
    probeLoop env i vs = ⟨false, fatalMessage (env (i + k)), vs.take (k + 1)⟩ := by
  intro vs
  induction vs with
  | nil => intro i k hk; simp at hk
  | cons v rest ih =>
      intro i k hk hfatal hbefore
      match k with
      | 0 =>
          unfold probeLoop
          simp only [Nat.add_zero] at hfatal
          simp [hfatal, List.take_succ_cons]
      | k' + 1 =>
          have h0 := hbefore 0 (Nat.succ_pos k')
          rw [Nat.add_zero] at h0
          unfold probeLoop
          simp only [h0.1, h0.2, Bool.false_eq_true, if_false]
          have hrec := ih (i + 1) k' (by simpa using hk)
            (by rw [Nat.add_right_comm]; exact hfatal)
            (by
              intro j hj
              rw [Nat.add_right_comm]
              exact hbefore (j + 1) (Nat.succ_lt_succ hj))
          rw [hrec]
          rw [Nat.add_right_comm]
          simp [List.take_succ_cons, Nat.add_assoc]

/-- C4: once a probe attempt fails with `ECONNREFUSED` or `ENOTFOUND`, the prober
stops immediately with that specific diagnosis, having attempted exactly the first
`k+1` payload variants in priority order; an HTTP status of 400 or more is a
non-match and non-fatal (the loop moves on), and in every probing run the sequence of
attempted payloads is a prefix of the variant catalogue. -/
theorem C4_fatal_stop (env : Nat → ProbeAttempt) (k : Nat)
    (hk : k < (generatePayloadVariants probeQuestion).length)
    (hfatal : attemptFatal (env k) = true)
    (hbefore : ∀ j, j < k → attemptFatal (env j) = false ∧ attemptMatches (env j) = false) :
    (testAgentConnection env).success = false
    ∧ (testAgentConnection env).sent = (generatePayloadVariants probeQuestion).take (k + 1)
    ∧ (env k = ProbeAttempt.netErr "ECONNREFUSED" →
        (testAgentConnection env).message =
          "Connection refused. Make sure your agent is running.")
    ∧ (env k = ProbeAttempt.netErr "ENOTFOUND" →
        (testAgentConnection env).message = "Endpoint not found. Please check the URL.")
    ∧ (∀ st body, 400 ≤ st →
        attemptFatal (ProbeAttempt.http st body) = false
        ∧ attemptMatches (ProbeAttempt.http st body) = false)
    ∧ (∀ env' : Nat → ProbeAttempt,
        (testAgentConnection env').sent <+: generatePayloadVariants probeQuestion) := by
  have hmain := probeLoop_fatal env (generatePayloadVariants probeQuestion) 0 k hk
    (by simpa using hfatal) (by simpa using hbefore)
  rw [Nat.zero_add] at hmain
  unfold testAgentConnection
  rw [hmain]
  refine ⟨rfl, rfl, ?_, ?_, ?_, ?_⟩
  · intro h
    simp [fatalMessage, h]
  · intro h
    simp [fatalMessage, h]
  · intro st body hst
    constructor
    · rfl
    · unfold attemptMatches
      have : ¬ st < 400 := by omega
      simp [this]
  · intro env'
    exact probeLoop_sent_isPrefix env' (generatePayloadVariants probeQuestion) 0

/-- C4 witness: a first variant answered with HTTP 500 (move on) and a second attempt
refused: two payloads sent, refused diagnosis, no third variant attempted. -/
theorem C4_fatal_stop_witness :
    (testAgentConnection probeEnvW).sent
      = (generatePayloadVariants probeQuestion).take 2
    ∧ (testAgentConnection probeEnvW).message
      = "Connection refused. Make sure your agent is running." := by
  have h := C4_fatal_stop probeEnvW 1 (by decide) (by decide)
    (by
      intro j hj
      have hj0 : j = 0 := by omega
      subst hj0
      exact ⟨rfl, by decide⟩)
  exact ⟨h.2.1, h.2.2.1 rfl⟩

/-- C6 (amended): for every agent call whose `CustomEndpointConfig` carries headers
or a non-empty body template, payload-variant negotiation is skipped and exactly one
HTTP request is issued — the custom request, independent of the response oracle —
using the config's lowercased method (default POST; GET carries no body, anything
else posts the template-built body) and the config's headers merged over
`Content-Type: application/json`. -/
theorem C6_custom_single_request (parse : String → Option Json) (env : Nat → LLMOutcome)
    (question : String) (cfg : CustomEndpointConfig)
    (h : (cfg.headers.isSome || optStrTruthy cfg.bodyTemplate) = true) :
    (callLLMEndpoint parse env question (some cfg)).requests
      = [customRequest parse cfg question]
    ∧ (callLLMEndpoint parse env question (some cfg)).requests.length = 1
    ∧ (effectiveMethod cfg = "get" →
        (customRequest parse cfg question).method = "get"
        ∧ (customRequest parse cfg question).body = none)
    ∧ (effectiveMethod cfg ≠ "get" → (customRequest parse cfg question).method = "post")
    ∧ (customRequest parse cfg question).headers = contentTypeJson :: cfg.headers.getD [] := by
  have hreq : (callLLMEndpoint parse env question (some cfg)).requests
      = [customRequest parse cfg question] := by
    unfold callLLMEndpoint
    simp [h]
  refine ⟨hreq, by rw [hreq]; rfl, ?_, ?_, ?_⟩
  · intro hm
    unfold customRequest
    simp [hm]
  · intro hm
    unfold customRequest
    simp [hm]
  · unfold customRequest
    by_cases hm : effectiveMethod cfg = "get" <;> simp [hm, customHeaders]

/-- C6 witness: a config carrying only headers issues exactly one request. -/
theorem C6_custom_single_request_witness :
    (callLLMEndpoint parseNone (fun _ => LLMOutcome.http 200 (Json.jstr "ok")) "q"
      (some cfgHdr)).requests.length = 1 :=
  (C6_custom_single_request parseNone (fun _ => LLMOutcome.http 200 (Json.jstr "ok"))
    "q" cfgHdr (by decide)).2.1

/-- C6 counterexample: a present `CustomEndpointConfig` that carries only a
`responseField` (no headers, no body template) does not skip negotiation — here the
first variant gets HTTP 500 and the second succeeds, so two requests are issued, not
exactly one. -/
theorem C6_counterexample :
    cfgRespOnly.responseField = some "answer"
    ∧ (callLLMEndpoint parseNone envTwo "q" (some cfgRespOnly)).requests.length = 2 :=
  ⟨rfl, rfl⟩

theorem countP_add_countP_not {α : Type} (p : α → Bool) (l : List α) :
    l.countP p + l.countP (fun a => !p a) = l.length := by
  induction l with
  | nil => rfl
  | cons a t ih =>
      simp only [List.countP_cons, List.length_cons]
      by_cases h : p a = true <;> simp [h] <;> omega

/-- C10: for every call to `checkHallucination` whose candidate answer is empty or
starts with `Error calling LLM endpoint:`, the verdict is a local `failed` (empty
label, facts and findings) and no request is issued to the remote judge, whatever
the judge oracle would have answered. -/
theorem C10_local_autofail (judge : JudgeOutcome) (q resp : String)
    (h : resp = "" ∨ strHasPre errMarker resp = true) :
    checkHallucination judge q resp =
      ({ question := q, llmResponse := resp, summary := "LLM endpoint error",
         facts := [], status := "failed", hallucinationLabel := "",
         hallucinationFindings := [] }, false) := by
  unfold checkHallucination
  rw [if_pos h]

/-- C10 witness: a synthesized agent-error response is auto-failed locally. -/
theorem C10_local_autofail_witness :
    checkHallucination JudgeOutcome.notFound "q" "Error calling LLM endpoint: boom"
      = ({ question := "q", llmResponse := "Error calling LLM endpoint: boom",
           summary := "LLM endpoint error", facts := [], status := "failed",
           hallucinationLabel := "", hallucinationFindings := [] }, false) :=
  C10_local_autofail JudgeOutcome.notFound "q" "Error calling LLM endpoint: boom"
    (Or.inr (by decide))

/-- C2: when the agent call yields a real (non-empty, non-error-marked) response and
the first store attempt succeeds, the judge verdict is translated to a boolean pass:
exactly the status `passed` counts as passed (`failed` and `ambiguous` count as
failed), and judge unavailability (HTTP 404) as well as any other judge error are
an automatic pass. -/
theorem C2_judge_translation (env : PromptEnv) (q resp : String)
    (hcall : env.call = CallOutcome.ok resp) (hresp : ¬ resp = "")
    (hmark : strHasPre errMarker resp = false)
    (hstore : env.storeFull = StoreOutcome.ok) :
    (∀ d, env.judge = JudgeOutcome.verdict d →
        (d.status = "passed" ∨ d.status = "failed" ∨ d.status = "ambiguous") →
        ((runPromptEvaluation env q).success = true ↔ d.status = "passed"))
    ∧ (env.judge = JudgeOutcome.notFound → (runPromptEvaluation env q).success = true)
    ∧ (env.judge = JudgeOutcome.err → (runPromptEvaluation env q).success = true) := by
  have hno : ¬ (resp = "" ∨ strHasPre errMarker resp = true) := by
    simp [hresp, hmark]
  have hrun : (runPromptEvaluation env q).success =
      decide ((if (checkHallucination env.judge q resp).1.status = "passed"
        then "passed" else ("failed" : String)) = "passed") := by
    unfold runPromptEvaluation
    rw [hcall, hstore]
  refine ⟨?_, ?_, ?_⟩
  · intro d hj hd
    rw [hj] at hrun
    have hv : (checkHallucination (JudgeOutcome.verdict d) q resp).1.status
        = (if d.status = "" then "passed" else d.status) := by
      unfold checkHallucination
      rw [if_neg hno]
    rw [hrun, hv]
    rcases hd with h | h | h <;> rw [h] <;> decide
  · intro hj
    rw [hj] at hrun
    have hv : (checkHallucination JudgeOutcome.notFound q resp).1.status = "passed" := by
      unfold checkHallucination
      rw [if_neg hno]
    rw [hrun, hv]
    decide
  · intro hj
    rw [hj] at hrun
    have hv : (checkHallucination JudgeOutcome.err q resp).1.status = "passed" := by
      unfold checkHallucination
      rw [if_neg hno]
    rw [hrun, hv]
    decide

/-- C2 witness: judge unavailability (HTTP 404) is an automatic pass. -/
theorem C2_judge_translation_witness :
    (runPromptEvaluation envJudge404 "q").success = true :=
  (C2_judge_translation envJudge404 "q" "hello" rfl (by decide) (by decide) rfl).2.1 rfl

/-- C3 (amended): for every prompt whose agent call succeeded with a non-empty
response string and whose judging/result-storage step throws (both store tiers
fail), the prompt is counted as passed, and the surrounding run still produces one
result per prompt (the loop is not aborted). -/
theorem C3_leniency_amended (env : PromptEnv) (q resp m1 m2 : String)
    (hcall : env.call = CallOutcome.ok resp) (hresp : ¬ resp = "")
    (h1 : env.storeFull = StoreOutcome.err m1) (h2 : env.storeMinimal = StoreOutcome.err m2) :
    (runPromptEvaluation env q).success = true
    ∧ (runPromptEvaluation env q).llmResponse = some resp
    ∧ ∀ (pre post : List (Prompt × PromptEnv)) (p : Prompt),
        (runAllPromptEvaluations (pre ++ (p, env) :: post)).length
          = pre.length + 1 + post.length := by
  have hrun : runPromptEvaluation env q =
      { success := true, question := q, llmResponse := some resp,
        hallucinationResult := some
          { question := q, llmResponse := resp,
            summary := "Evaluation skipped (LLM responded successfully)",
            facts := [], status := "passed", hallucinationLabel := "NO_HALLUCINATION",
            hallucinationFindings := [] },
        error := none } := by
    unfold runPromptEvaluation
    rw [hcall, h1, h2]
    simp [hresp]
  refine ⟨by rw [hrun], by rw [hrun], ?_⟩
  intro pre post p
  unfold runAllPromptEvaluations
  rw [List.length_map, List.length_append, List.length_cons]
  omega

/-- C3 witness: agent answered, the judge said `failed`, and both store attempts
threw — the prompt is nevertheless counted as passed. -/
theorem C3_leniency_amended_witness :
    (runPromptEvaluation envLenient "q").success = true :=
  (C3_leniency_amended envLenient "q" "pong" "boom" "boom" rfl (by decide) rfl rfl).1

/-- C3 counterexample: the agent call succeeded and a response string was obtained —
the empty string — and the storage step threw; because the source's leniency guard is
JavaScript truthiness (`if (llmResponse)`), the empty response falls into the error
branch and the prompt is counted as failed, not passed. -/
theorem C3_counterexample :
    envEmptyResp.call = CallOutcome.ok ""
    ∧ envEmptyResp.storeFull = StoreOutcome.err "boom"
    ∧ envEmptyResp.storeMinimal = StoreOutcome.err "boom"
    ∧ (runPromptEvaluation envEmptyResp "q").success = false := by
  refine ⟨rfl, rfl, rfl, rfl⟩

/-- C1 (amended): for every completed run in which the backend created at least one
prompt, `passed + failed = totalTests`; unconditionally, the run produces exactly one
`EvaluationResult` per prompt, and a prompt whose agent call throws still yields a
result at its position, counted in `failed`. -/
theorem C1_run_invariants (items : List (Prompt × PromptEnv)) (hne : items ≠ []) :
    (runEvaluation items).passed + (runEvaluation items).failed
      = (runEvaluation items).totalTests
    ∧ (runAllPromptEvaluations items).length = items.length
    ∧ (∀ (i : Nat) (p : Prompt) (e : PromptEnv) (m : String),
        items[i]? = some (p, e) → e.call = CallOutcome.err m →
        ∃ r, (runAllPromptEvaluations items)[i]? = some r ∧ r.success = false) := by
  have hlen : (runAllPromptEvaluations items).length = items.length := by
    unfold runAllPromptEvaluations
    exact List.length_map _ _
  refine ⟨?_, hlen, ?_⟩
  · show (runAllPromptEvaluations items).countP (fun r => r.success)
        + (runAllPromptEvaluations items).countP (fun r => !r.success)
      = if items.length = 0 then 5 else items.length
    rw [countP_add_countP_not, hlen]
    have : items.length ≠ 0 := fun h => hne (List.length_eq_zero.mp h)
    simp [this]
  · intro i p e m hitem hcall
    refine ⟨runPromptEvaluation e p.prompt, ?_, ?_⟩
    · unfold runAllPromptEvaluations
      rw [List.getElem?_map, hitem]
      rfl
    · unfold runPromptEvaluation
      rw [hcall]
      rfl

/-- C1 witness: a single-prompt run whose agent call throws still satisfies
`passed + failed = totalTests`, with the prompt counted in `failed`. -/
theorem C1_run_invariants_witness :
    ((runEvaluation [(promptW, envNetErr)]).passed
        + (runEvaluation [(promptW, envNetErr)]).failed
      = (runEvaluation [(promptW, envNetErr)]).totalTests)
    ∧ (runEvaluation [(promptW, envNetErr)]).failed = 1 :=
  ⟨(C1_run_invariants [(promptW, envNetErr)] (by simp)).1, by decide⟩

/-- C1 counterexample: a completed run in which the backend created zero prompts
reports `totalTests = 5` (the `promptCount || 5` fallback) while producing zero
results, so `passed + failed = 0 ≠ 5 = totalTests`. -/
theorem C1_counterexample :
    (runEvaluation ([] : List (Prompt × PromptEnv))).totalTests = 5
    ∧ (runEvaluation ([] : List (Prompt × PromptEnv))).passed = 0
    ∧ (runEvaluation ([] : List (Prompt × PromptEnv))).failed = 0
    ∧ (runEvaluation ([] : List (Prompt × PromptEnv))).passed
        + (runEvaluation ([] : List (Prompt × PromptEnv))).failed
      ≠ (runEvaluation ([] : List (Prompt × PromptEnv))).totalTests := by
  refine ⟨rfl, rfl, rfl, by decide⟩

end Starter
